import Mathlib

/-!
Verification of the bulk performance-testing tool (`webpagetest.py`).

The development shallowly embeds the program's pure core:

* `urlparse` — the fragment of CPython's `urllib.parse.urlparse` that the
  program observes (`scheme`, `netloc`, `path`); tab/CR/LF removal, the
  scheme split, the `//`-netloc split, the mismatched-bracket `ValueError`,
  and fragment/query/params stripping are all modelled.  The bracketed-host
  content validation of newer CPython and the NFKC netloc check (which is the
  identity on ASCII input) are not modelled; no input considered here is
  affected by either.
* `validate_urls` / `validateOne` — URL validation (source lines 13-31).
* `test_site_with_retry` — the retrying submitter (source lines 33-66),
  with the HTTP endpoint abstracted as an oracle from attempt number to an
  optional response; the trace records the result, the number of loop
  attempts, the issued requests and the sleeps.
* `rowResultUpdate` / `batchLoop` — the per-row result assignment of the
  batch loop (source lines 144-157), with Python truthiness, `in`, and
  subscript semantics on JSON values made explicit.
* `detect_delimiter` — delimiter sniffing over an explicit file-cursor model
  (source lines 68-74).
-/

/-- Whitespace stripped by Python's `str.strip()` (ASCII fragment). -/
def isPySpace (c : Char) : Bool :=
  c = ' ' || c = '\t' || c = '\n' || c = '\r' || c = '\x0b' || c = '\x0c'

/-- `str.strip()`: remove leading and trailing whitespace. -/
def pyStrip (s : String) : String :=
  String.mk (List.rdropWhile isPySpace (s.data.dropWhile isPySpace))

/-- `str.rstrip(c)`: remove trailing occurrences of `c`. -/
def pyRstrip (s : String) (c : Char) : String :=
  String.mk (List.rdropWhile (fun x => x = c) s.data)

/-- Characters allowed in a URL scheme (`urllib.parse.scheme_chars`). -/
def isSchemeChar (c : Char) : Bool :=
  c.isAlpha || c.isDigit || c = '+' || c = '-' || c = '.'

/-- `urlsplit` removes tab, CR and LF from the URL before parsing. -/
def removeUnsafe (l : List Char) : List Char :=
  l.filter (fun c => !(c = '\t' || c = '\r' || c = '\n'))

/-- The scheme split of `urlsplit`: if a `:` occurs (`dropWhile` leaves a
nonempty remainder, which then starts with that colon) and is preceded by
a nonempty run of scheme characters starting with a letter, that run
(lowercased) is the scheme and the remainder follows the colon; otherwise
the scheme is empty and the input is left whole. -/
def splitScheme (l : List Char) : List Char × List Char :=
  if l.dropWhile (fun c => c ≠ ':') = [] then ([], l)
  else
    match l.takeWhile (fun c => c ≠ ':') with
    | [] => ([], l)
    | c :: cs =>
      if c.isAlpha && (c :: cs).all isSchemeChar then
        ((c :: cs).map Char.toLower, (l.dropWhile (fun c => c ≠ ':')).drop 1)
      else ([], l)

/-- Characters that end the netloc in `_splitnetloc`. -/
def netlocDelim (c : Char) : Bool :=
  c = '/' || c = '?' || c = '#'

/-- `urlparse`'s `_splitparams`: drop `;params` from the last path segment. -/
def splitParams (p : List Char) : List Char :=
  if p.contains ';' then
    if p.contains '/' then
      let lastSeg := (p.reverse.takeWhile (fun c => c ≠ '/')).reverse
      if lastSeg.contains ';' then
        p.take (p.length - lastSeg.length) ++ lastSeg.takeWhile (fun c => c ≠ ';')
      else p
    else p.takeWhile (fun c => c ≠ ';')
  else p

/-- Strip the fragment (first `#` on), then the query (first `?` on), then
the params, leaving the `path` component of `urlparse`. -/
def parsePath (l : List Char) : List Char :=
  splitParams ((l.takeWhile (fun c => c ≠ '#')).takeWhile (fun c => c ≠ '?'))

deriving instance DecidableEq for Except

/-- The components of a parsed URL that the program observes. -/
structure UrlParts where
  scheme : String
  netloc : String
  path : String
deriving Repr, DecidableEq

/-- `_splitnetloc`: the netloc runs from after the `//` to the first
delimiter. -/
def netlocOf (rest : List Char) : List Char :=
  (rest.drop 2).takeWhile (fun c => !netlocDelim c)

/-- What follows the netloc. -/
def afterNetloc (rest : List Char) : List Char :=
  (rest.drop 2).dropWhile (fun c => !netlocDelim c)

/-- The mismatched-bracket check of `urlsplit` (raises `ValueError`). -/
def bracketMismatch (netloc : List Char) : Bool :=
  netloc.contains '[' && !netloc.contains ']' ||
    netloc.contains ']' && !netloc.contains '['

/-- `urllib.parse.urlparse`, restricted to the observed components.
`Except.error` is the `ValueError` raised on a mismatched bracket in the
netloc. -/
def urlparse (s : String) : Except String UrlParts :=
  if (splitScheme (removeUnsafe s.data)).2.take 2 = ['/', '/'] then
    if bracketMismatch (netlocOf (splitScheme (removeUnsafe s.data)).2) then
      Except.error "Invalid IPv6 URL"
    else
      Except.ok ⟨String.mk (splitScheme (removeUnsafe s.data)).1,
        String.mk (netlocOf (splitScheme (removeUnsafe s.data)).2),
        String.mk (parsePath (afterNetloc (splitScheme (removeUnsafe s.data)).2))⟩
  else
    Except.ok ⟨String.mk (splitScheme (removeUnsafe s.data)).1, "",
      String.mk (parsePath (splitScheme (removeUnsafe s.data)).2)⟩

/-- The issue classification of `validate_urls` once a parse is in hand
(source lines 24-27); the first component records the string the program
appends alongside the issue. -/
def classifyNetloc (url : String) (p : UrlParts) : Option (String × String) :=
  if p.netloc = "" then some (url, "Missing domain name")
  else if '.' ∈ p.netloc.data then none
  else some (url, "Invalid domain format")

/-- One iteration of the `validate_urls` loop (source lines 16-30): parse
the stripped input; if neither scheme nor netloc was found, prepend
`https://` to the (unstripped) input and re-parse; classify; any parse
`ValueError` is caught and reported with its message. -/
def validateOne (url : String) : Option (String × String) :=
  match urlparse (pyStrip url) with
  | Except.error e => some (url, e)
  | Except.ok parsed =>
    if parsed.scheme = "" ∧ parsed.netloc = "" then
      match urlparse ("https://" ++ url) with
      | Except.error e => some ("https://" ++ url, e)
      | Except.ok parsed2 => classifyNetloc ("https://" ++ url) parsed2
    else classifyNetloc url parsed

/-- `validate_urls` (source lines 13-31): collect the issues of all rows. -/
def validate_urls (urls : List String) : List (String × String) :=
  urls.filterMap validateOne

/-- JSON values, as returned by `response.json()`. -/
inductive Json where
  | null : Json
  | bool : Bool → Json
  | num : Int → Json
  | str : String → Json
  | arr : List Json → Json
  | obj : List (String × Json) → Json

/-- Python truthiness of a JSON value (`if result and ...`). -/
def Json.truthy : Json → Bool
  | .null => false
  | .bool b => b
  | .num n => n ≠ 0
  | .str s => s ≠ ""
  | .arr xs => !xs.isEmpty
  | .obj kvs => !kvs.isEmpty

/-- Whether the first list is a prefix of the second. -/
def prefixOfL : List Char → List Char → Bool
  | [], _ => true
  | _ :: _, [] => false
  | a :: as, b :: bs => a = b && prefixOfL as bs

/-- Whether the first list occurs contiguously inside the second. -/
def infixOfL (needle : List Char) : List Char → Bool
  | [] => prefixOfL needle []
  | b :: bs => prefixOfL needle (b :: bs) || infixOfL needle bs

/-- Python's `needle in j` for a string needle: key lookup on a dict,
substring test on a string, membership on a list; `none` is the `TypeError`
raised on the remaining values. -/
def pyInStr (needle : String) : Json → Option Bool
  | .obj kvs => some (kvs.find? (fun kv => kv.1 = needle)).isSome
  | .str s => some (infixOfL needle.data s.data)
  | .arr xs => some (xs.any (fun x => match x with | .str s => s = needle | _ => false))
  | _ => none

/-- Python's `j[needle]` for a string needle: dict lookup; `none` is the
`TypeError` (or `KeyError`) raised on every other value. -/
def pyIndexStr (needle : String) : Json → Option Json
  | .obj kvs => (kvs.find? (fun kv => kv.1 = needle)).map (fun kv => kv.2)
  | _ => none

/-- An HTTP response as the program observes it: status code and the result
of parsing the body as JSON (`none` when `response.json()` raises). -/
structure Resp where
  status : Int
  body : Option Json

/-- One issued HTTP request. -/
structure Request where
  method : String
  url : String
  headers : List (String × String)
deriving DecidableEq

/-- The headers built at source lines 43-48. -/
def mkHeaders (api_key : String) : List (String × String) :=
  [("Accept", "application/json"), ("Content-Type", "application/json"),
   ("X-WPT-API-KEY", api_key), ("User-Agent", "Python")]

/-- Source line 39: `(parsed_url.netloc + parsed_url.path).rstrip('/')`;
the error is the `ValueError` `urlparse` may raise. -/
def clean_url (site_url : String) : Except String String :=
  (urlparse site_url).map (fun p => pyRstrip (p.netloc ++ p.path) '/')

/-- Source line 41: the literal f-string building the API request URL. -/
def api_request_url (site_url : String) : Except String String :=
  (clean_url site_url).map
    (fun c => "https://www.webpagetest.org/runtest.php?&url=https%3A%2F%2F" ++ c ++ "&f=json")

/-- Outcome of one HTTP exchange: `response.raise_for_status()` raises for
status codes in `[400, 600)`, and `response.json()` raises when the body is
not JSON; otherwise the parsed body is returned. -/
def attemptHTTP (r : Option Resp) : Option Json :=
  match r with
  | none => none
  | some resp =>
    if 400 ≤ resp.status ∧ resp.status < 600 then none else resp.body

/-- The observable trace of one `test_site_with_retry` call. -/
structure SubmitTrace where
  result : Option Json
  attempts : Nat
  requests : List Request
  sleeps : List Int

/-- The `for attempt in range(max_retries)` loop of `test_site_with_retry`
(source lines 35-66).  `fuel` is the number of iterations left and
`attempt` the current index; each iteration re-parses the URL (a parse
`ValueError` is an exception caught before any request is issued),
issues the request, and on an exception sleeps `delay` and retries while
`attempt < max_retries - 1`, otherwise returns `none`. -/
def retryLoop (method site_url api_key : String) (oracle : Nat → Option Resp)
    (max_retries delay : Int) : Nat → Nat → SubmitTrace
  | _, 0 => ⟨none, 0, [], []⟩
  | attempt, fuel + 1 =>
    match api_request_url site_url with
    | Except.error _ =>
      if (attempt : Int) < max_retries - 1 then
        let t := retryLoop method site_url api_key oracle max_retries delay (attempt + 1) fuel
        ⟨t.result, t.attempts + 1, t.requests, delay :: t.sleeps⟩
      else ⟨none, 1, [], []⟩
    | Except.ok u =>
      match attemptHTTP (oracle attempt) with
      | some j => ⟨some j, 1, [⟨method, u, mkHeaders api_key⟩], []⟩
      | none =>
        if (attempt : Int) < max_retries - 1 then
          let t := retryLoop method site_url api_key oracle max_retries delay (attempt + 1) fuel
          ⟨t.result, t.attempts + 1, ⟨method, u, mkHeaders api_key⟩ :: t.requests, delay :: t.sleeps⟩
        else ⟨none, 1, [⟨method, u, mkHeaders api_key⟩], []⟩

/-- `test_site_with_retry` (source lines 33-66): run the retry loop from
attempt 0; `range(max_retries)` yields `max_retries.toNat` iterations. -/
def test_site_with_retry (method site_url api_key : String) (oracle : Nat → Option Resp)
    (max_retries delay : Int) : SubmitTrace :=
  retryLoop method site_url api_key oracle max_retries delay 0 max_retries.toNat

/-- The per-row assignment of the batch loop (source lines 152-155):
`result['data']['jsonUrl']` when
`result and 'data' in result and 'jsonUrl' in result['data']`, else the
sentinel; `Except.error` is an uncaught `TypeError` from the check. -/
def rowResultUpdate (result : Option Json) : Except String Json :=
  match result with
  | none => Except.ok (Json.str "Error processing URL")
  | some j =>
    if j.truthy then
      match pyInStr "data" j with
      | none => Except.error "TypeError"
      | some false => Except.ok (Json.str "Error processing URL")
      | some true =>
        match pyIndexStr "data" j with
        | none => Except.error "TypeError"
        | some d =>
          match pyInStr "jsonUrl" d with
          | none => Except.error "TypeError"
          | some false => Except.ok (Json.str "Error processing URL")
          | some true =>
            match pyIndexStr "jsonUrl" d with
            | none => Except.error "TypeError"
            | some v => Except.ok v
    else Except.ok (Json.str "Error processing URL")

/-- Whether the per-row assignment completes without raising. -/
def noRaise (result : Option Json) : Bool :=
  match rowResultUpdate result with
  | Except.ok _ => true
  | Except.error _ => false

/-- The batch loop over the per-row submission results (source lines
144-157), inside the file-level `try` (line 97): each row's `Results`
value is assigned in order; an uncaught exception aborts the whole loop
(`none`). -/
def batchLoop (results : List (Option Json)) : Option (List Json) :=
  match results with
  | [] => some []
  | r :: rs =>
    match rowResultUpdate r with
    | Except.error _ => none
    | Except.ok v => (batchLoop rs).map (fun out => v :: out)

/-- Modelled from the spec: the `Results` value C3 prescribes for a row —
the extracted `data.jsonUrl` link when submission returned a JSON object
containing `data.jsonUrl`, and the failure sentinel otherwise. -/
def claimedResult (result : Option Json) : Json :=
  match result with
  | some (Json.obj kvs) =>
    match kvs.find? (fun kv => kv.1 = "data") with
    | some (_, Json.obj kvs2) =>
      match kvs2.find? (fun kv => kv.1 = "jsonUrl") with
      | some (_, v) => v
      | none => Json.str "Error processing URL"
    | _ => Json.str "Error processing URL"
  | _ => Json.str "Error processing URL"

/-- An uploaded file: its content and the read cursor. -/
structure PyFile where
  content : String
  pos : Nat
deriving DecidableEq

/-- `file.readline()` (decoded): the characters from the cursor up to and
including the first newline, advancing the cursor past them. -/
def readline (f : PyFile) : String × PyFile :=
  let rest := f.content.data.drop f.pos
  let body := rest.takeWhile (fun c => c ≠ '\n')
  let line := if body.length < rest.length then body ++ ['\n'] else body
  (String.mk line, ⟨f.content, f.pos + line.length⟩)

/-- `file.seek(0)`. -/
def seek0 (f : PyFile) : PyFile :=
  ⟨f.content, 0⟩

/-- `detect_delimiter` (source lines 68-74): read the first line, reset the
cursor, and return a tab if the first line contains one, else a comma. -/
def detect_delimiter (f : PyFile) : String × PyFile :=
  let rl := readline f
  let f2 := seek0 rl.2
  if rl.1.data.contains '\t' then ("\t", f2) else (",", f2)

/-- Modelled from the spec: RFC 3986 unreserved characters, kept verbatim
by percent-encoding. -/
def isUnreserved (c : Char) : Bool :=
  c.isAlpha || c.isDigit || c = '-' || c = '.' || c = '_' || c = '~'

/-- Modelled from the spec: an uppercase hex digit. -/
def hexDigit (n : Nat) : Char :=
  if n < 10 then Char.ofNat (48 + n) else Char.ofNat (55 + n)

/-- Modelled from the spec: percent-encode (URL-encode) a string, byte-wise
over its ASCII characters. -/
def percentEncode (s : String) : String :=
  String.mk ((s.data.map (fun c =>
    if isUnreserved c then [c]
    else ['%', hexDigit (c.toNat / 16 % 16), hexDigit (c.toNat % 16)])).flatten)

/-- Modelled from the spec (C4's words): the endpoint built by embedding
the normalized target, URL-encoded and forced to an `https://` prefix,
into the fixed API path with JSON output requested. -/
def api_request_url_claimed (site_url : String) : Except String String :=
  (clean_url site_url).map
    (fun c => "https://www.webpagetest.org/runtest.php?&url=" ++
      percentEncode ("https://" ++ c) ++ "&f=json")

/-- If every iteration of the retry loop fails, the loop uses up all its
fuel, returns `none`, issues one request per iteration when the URL parses
(none otherwise), and sleeps between consecutive iterations. -/
theorem retryLoop_all_fail (method site_url api_key : String) (oracle : Nat → Option Resp)
    (max_retries delay : Int) (hf : ∀ i, attemptHTTP (oracle i) = none) :
    ∀ (fuel attempt : Nat), (attempt : Int) + (fuel : Int) = max_retries →
      retryLoop method site_url api_key oracle max_retries delay attempt fuel =
        ⟨none, fuel,
         (match api_request_url site_url with
          | Except.ok u => List.replicate fuel ⟨method, u, mkHeaders api_key⟩
          | Except.error _ => []),
         List.replicate (fuel - 1) delay⟩ := by
  intro fuel
  induction fuel with
  | zero =>
    intro attempt hfu
    cases hu : api_request_url site_url <;> simp [retryLoop, hu]
  | succ n ih =>
    intro attempt hfu
    cases n with
    | zero =>
      have hguard : ¬ ((attempt : Int) < max_retries - 1) := by omega
      cases hu : api_request_url site_url <;>
        simp [retryLoop, hu, hf attempt, hguard]
    | succ m =>
      have hguard : (attempt : Int) < max_retries - 1 := by
        push_cast at hfu; omega
      have hih := ih (attempt + 1) (by push_cast at hfu ⊢; omega)
      cases hu : api_request_url site_url with
      | error e =>
        rw [retryLoop, hu]
        dsimp only
        rw [if_pos hguard, hih]
        simp [List.replicate_succ, hu]
      | ok u =>
        rw [retryLoop, hu]
        dsimp only
        rw [hf attempt]
        dsimp only
        rw [if_pos hguard, hih]
        simp [List.replicate_succ, hu]

/-- C1: for every method, rawUrl and apiKey, if every HTTP attempt fails
(e.g. the endpoint always answers 500), `test_site_with_retry` makes
exactly `max_retries` attempts, sleeps `delay` between consecutive
attempts (`max_retries - 1` sleeps), and returns `none` rather than
raising. -/
theorem submit_all_fail_retries (method site_url api_key : String) (oracle : Nat → Option Resp)
    (max_retries delay : Int) (hmr : 0 ≤ max_retries)
    (hf : ∀ i, attemptHTTP (oracle i) = none) :
    (test_site_with_retry method site_url api_key oracle max_retries delay).result = none ∧
    ((test_site_with_retry method site_url api_key oracle max_retries delay).attempts : Int)
      = max_retries ∧
    (test_site_with_retry method site_url api_key oracle max_retries delay).sleeps
      = List.replicate (max_retries - 1).toNat delay := by
  have h := retryLoop_all_fail method site_url api_key oracle max_retries delay hf
    max_retries.toNat 0 (by omega)
  rw [test_site_with_retry, h]
  refine ⟨rfl, ?_, ?_⟩
  · show ((max_retries.toNat : Nat) : Int) = max_retries
    omega
  · show List.replicate (max_retries.toNat - 1) delay
        = List.replicate (max_retries - 1).toNat delay
    congr 1
    omega

/-- Witness for C1: three attempts against an endpoint that always
returns HTTP 500. -/
theorem submit_all_fail_retries_witness :
    (test_site_with_retry "POST" "https://example.com/" "key"
        (fun _ => some ⟨500, none⟩) 3 5).result = none ∧
    ((test_site_with_retry "POST" "https://example.com/" "key"
        (fun _ => some ⟨500, none⟩) 3 5).attempts : Int) = 3 ∧
    (test_site_with_retry "POST" "https://example.com/" "key"
        (fun _ => some ⟨500, none⟩) 3 5).sleeps = List.replicate ((3 : Int) - 1).toNat 5 :=
  submit_all_fail_retries "POST" "https://example.com/" "key"
    (fun _ => some ⟨500, none⟩) 3 5 (by decide) (fun _ => rfl)

/-- If the URL parses, the first `k` iterations fail and iteration `k`
succeeds with `j`, the retry loop stops after `k + 1` iterations with
result `j`. -/
theorem retryLoop_succeeds (method site_url api_key : String) (oracle : Nat → Option Resp)
    (max_retries delay : Int) (u : String) (j : Json)
    (hu : api_request_url site_url = Except.ok u) :
    ∀ (k attempt fuel : Nat), (attempt : Int) + (fuel : Int) = max_retries → k < fuel →
      (∀ i, i < k → attemptHTTP (oracle (attempt + i)) = none) →
      attemptHTTP (oracle (attempt + k)) = some j →
      retryLoop method site_url api_key oracle max_retries delay attempt fuel =
        ⟨some j, k + 1, List.replicate (k + 1) ⟨method, u, mkHeaders api_key⟩,
         List.replicate k delay⟩ := by
  intro k
  induction k with
  | zero =>
    intro attempt fuel hfu hk hfail hsucc
    cases fuel with
    | zero => omega
    | succ m =>
      simp only [Nat.add_zero] at hsucc
      simp [retryLoop, hu, hsucc]
  | succ n ih =>
    intro attempt fuel hfu hk hfail hsucc
    cases fuel with
    | zero => omega
    | succ m =>
      have hguard : (attempt : Int) < max_retries - 1 := by
        push_cast at hfu; omega
      have h0 : attemptHTTP (oracle attempt) = none := by
        simpa using hfail 0 (Nat.succ_pos n)
      have hih := ih (attempt + 1) m (by push_cast at hfu ⊢; omega) (by omega)
        (fun i hi => by
          have := hfail (i + 1) (by omega)
          simpa [Nat.add_assoc, Nat.add_comm 1 i] using this)
        (by
          have : attempt + 1 + n = attempt + (n + 1) := by omega
          rw [this]; exact hsucc)
      rw [retryLoop, hu]
      dsimp only
      rw [h0]
      dsimp only
      rw [if_pos hguard, hih]
      simp [List.replicate_succ]

/-- C2: for every method, rawUrl and apiKey, if attempt `k` (1-based,
`k ≤ max_retries`) gets a 2xx response with a parseable JSON body and all
earlier attempts fail, `test_site_with_retry` returns that parsed JSON
after exactly `k` attempts (so exactly `k` requests and `k - 1` sleeps):
no further attempts follow the success. -/
theorem submit_success_stops (method site_url api_key : String) (oracle : Nat → Option Resp)
    (max_retries delay : Int) (k : Nat) (u : String) (r : Resp) (j : Json)
    (hk1 : 1 ≤ k) (hk2 : (k : Int) ≤ max_retries)
    (hu : api_request_url site_url = Except.ok u)
    (hfail : ∀ i, i < k - 1 → attemptHTTP (oracle i) = none)
    (hr : oracle (k - 1) = some r)
    (h2xx : 200 ≤ r.status ∧ r.status < 300) (hbody : r.body = some j) :
    (test_site_with_retry method site_url api_key oracle max_retries delay).result = some j ∧
    (test_site_with_retry method site_url api_key oracle max_retries delay).attempts = k ∧
    (test_site_with_retry method site_url api_key oracle max_retries delay).requests
      = List.replicate k ⟨method, u, mkHeaders api_key⟩ ∧
    (test_site_with_retry method site_url api_key oracle max_retries delay).sleeps
      = List.replicate (k - 1) delay := by
  have hsucc : attemptHTTP (oracle (0 + (k - 1))) = some j := by
    rw [Nat.zero_add, hr]
    simp only [attemptHTTP]
    rw [if_neg (by omega)]
    exact hbody
  have h := retryLoop_succeeds method site_url api_key oracle max_retries delay u j hu
    (k - 1) 0 max_retries.toNat (by omega) (by omega)
    (fun i hi => by simpa using hfail i hi) hsucc
  rw [test_site_with_retry, h]
  have hk : k - 1 + 1 = k := by omega
  rw [hk]
  exact ⟨rfl, rfl, rfl, rfl⟩

/-- Witness for C2: the endpoint fails once with 500 and succeeds on the
2nd of 3 allowed attempts; exactly 2 attempts are made. -/
theorem submit_success_stops_witness :
    (test_site_with_retry "POST" "https://example.com/" "key"
        (fun i => if i = 0 then some ⟨500, none⟩ else some ⟨200, some (Json.str "ok")⟩)
        3 5).result = some (Json.str "ok") ∧
    (test_site_with_retry "POST" "https://example.com/" "key"
        (fun i => if i = 0 then some ⟨500, none⟩ else some ⟨200, some (Json.str "ok")⟩)
        3 5).attempts = 2 ∧
    (test_site_with_retry "POST" "https://example.com/" "key"
        (fun i => if i = 0 then some ⟨500, none⟩ else some ⟨200, some (Json.str "ok")⟩)
        3 5).requests = List.replicate 2
          ⟨"POST", "https://www.webpagetest.org/runtest.php?&url=https%3A%2F%2Fexample.com&f=json",
           mkHeaders "key"⟩ ∧
    (test_site_with_retry "POST" "https://example.com/" "key"
        (fun i => if i = 0 then some ⟨500, none⟩ else some ⟨200, some (Json.str "ok")⟩)
        3 5).sleeps = List.replicate (2 - 1) 5 :=
  submit_success_stops "POST" "https://example.com/" "key"
    (fun i => if i = 0 then some ⟨500, none⟩ else some ⟨200, some (Json.str "ok")⟩)
    3 5 2
    "https://www.webpagetest.org/runtest.php?&url=https%3A%2F%2Fexample.com&f=json"
    ⟨200, some (Json.str "ok")⟩ (Json.str "ok")
    (by decide) (by decide) (by decide)
    (fun i hi => by interval_cases i; rfl)
    rfl (by decide) rfl

/-- C9: if `max_retries ≤ 0`, `test_site_with_retry` returns `none`
immediately: no request, no sleep, no attempt, no exception
(`range(max_retries)` is empty and the function falls through). -/
theorem submit_nonpositive_retries (method site_url api_key : String)
    (oracle : Nat → Option Resp) (max_retries delay : Int) (h : max_retries ≤ 0) :
    test_site_with_retry method site_url api_key oracle max_retries delay
      = ⟨none, 0, [], []⟩ := by
  have h0 : max_retries.toNat = 0 := by omega
  rw [test_site_with_retry, h0]
  rfl

/-- Witness for C9: `max_retries = -2` (and an endpoint that would
succeed) yields the empty trace. -/
theorem submit_nonpositive_retries_witness :
    test_site_with_retry "POST" "https://example.com/" "key"
        (fun _ => some ⟨200, some (Json.str "ok")⟩) (-2) 5 = ⟨none, 0, [], []⟩ :=
  submit_nonpositive_retries "POST" "https://example.com/" "key"
    (fun _ => some ⟨200, some (Json.str "ok")⟩) (-2) 5 (by decide)

/-- Every request the retry loop issues carries the built API URL, the
given method, and the fixed headers. -/
theorem retryLoop_requests (method site_url api_key : String) (oracle : Nat → Option Resp)
    (max_retries delay : Int) :
    ∀ (fuel attempt : Nat) (req : Request),
      req ∈ (retryLoop method site_url api_key oracle max_retries delay attempt fuel).requests →
      api_request_url site_url = Except.ok req.url ∧ req.method = method ∧
        req.headers = mkHeaders api_key := by
  intro fuel
  induction fuel with
  | zero => intro attempt req h; simp [retryLoop] at h
  | succ n ih =>
    intro attempt req h
    rw [retryLoop] at h
    cases hu : api_request_url site_url with
    | error e =>
      rw [hu] at h
      dsimp only at h
      by_cases hg : (attempt : Int) < max_retries - 1
      · rw [if_pos hg] at h
        have hr := ih (attempt + 1) req h
        rw [hu] at hr
        exact hr
      · rw [if_neg hg] at h
        simp at h
    | ok u =>
      rw [hu] at h
      dsimp only at h
      cases ho : attemptHTTP (oracle attempt) with
      | some j =>
        rw [ho] at h
        dsimp only at h
        simp at h
        subst h
        exact ⟨rfl, rfl, rfl⟩
      | none =>
        rw [ho] at h
        dsimp only at h
        by_cases hg : (attempt : Int) < max_retries - 1
        · rw [if_pos hg] at h
          simp at h
          cases h with
          | inl h => subst h; exact ⟨rfl, rfl, rfl⟩
          | inr h =>
            have hr := ih (attempt + 1) req h
            rw [hu] at hr
            exact hr
        · rw [if_neg hg] at h
          simp at h
          subst h
          exact ⟨rfl, rfl, rfl⟩

/-- Counterexample for C4: the normalized target is *not* URL-encoded when
embedded — for a URL with a path, the code's request URL differs from the
one obtained by percent-encoding the prefixed target as the claim states
(the path's `/` would become `%2F`). -/
theorem api_url_encoding_cex :
    api_request_url "https://example.com/a" ≠ api_request_url_claimed "https://example.com/a" ∧
    api_request_url "https://example.com/a" = Except.ok
      "https://www.webpagetest.org/runtest.php?&url=https%3A%2F%2Fexample.com/a&f=json" ∧
    api_request_url_claimed "https://example.com/a" = Except.ok
      "https://www.webpagetest.org/runtest.php?&url=https%3A%2F%2Fexample.com%2Fa&f=json" := by
  refine ⟨by decide, by decide, by decide⟩

/-- C4 (amended): every request `test_site_with_retry` issues embeds the
normalized target *verbatim* after the percent-encoded prefix
`https%3A%2F%2F` in the fixed API path, with `f=json` requested; only the
forced `https://` prefix is percent-encoded. -/
theorem api_url_format (method site_url api_key : String) (oracle : Nat → Option Resp)
    (max_retries delay : Int) (c : String)
    (hc : clean_url site_url = Except.ok c) :
    ∀ req ∈ (test_site_with_retry method site_url api_key oracle max_retries delay).requests,
      req.url = "https://www.webpagetest.org/runtest.php?&url=https%3A%2F%2F" ++ c ++ "&f=json" := by
  intro req hreq
  have h := retryLoop_requests method site_url api_key oracle max_retries delay
    max_retries.toNat 0 req hreq
  have hu : api_request_url site_url = Except.ok
      ("https://www.webpagetest.org/runtest.php?&url=https%3A%2F%2F" ++ c ++ "&f=json") := by
    rw [api_request_url, hc]
    rfl
  rw [hu] at h
  exact (Except.ok.injEq _ _).mp h.1.symm

/-- Witness for C4 (amended): one concrete issued request. -/
theorem api_url_format_witness :
    clean_url "https://example.com/" = Except.ok "example.com" ∧
    (⟨"POST", "https://www.webpagetest.org/runtest.php?&url=https%3A%2F%2Fexample.com&f=json",
        mkHeaders "key"⟩ : Request) ∈
      (test_site_with_retry "POST" "https://example.com/" "key"
        (fun _ => some ⟨500, none⟩) 1 5).requests ∧
    (⟨"POST", "https://www.webpagetest.org/runtest.php?&url=https%3A%2F%2Fexample.com&f=json",
        mkHeaders "key"⟩ : Request).url
      = "https://www.webpagetest.org/runtest.php?&url=https%3A%2F%2F" ++ "example.com" ++ "&f=json" :=
  ⟨by decide, by decide,
   api_url_format "POST" "https://example.com/" "key" (fun _ => some ⟨500, none⟩) 1 5
     "example.com" (by decide) _ (by decide)⟩

/-- If the scheme split finds no scheme, it leaves the input unchanged. -/
theorem splitScheme_fst_nil (l : List Char) (h : (splitScheme l).1 = []) :
    (splitScheme l).2 = l := by
  unfold splitScheme at h ⊢
  by_cases h1 : l.dropWhile (fun c => c ≠ ':') = []
  · rw [if_pos h1]
  · rw [if_neg h1] at h ⊢
    cases ht : l.takeWhile (fun c => c ≠ ':') with
    | nil => rfl
    | cons c cs =>
      rw [ht] at h
      dsimp only at h ⊢
      by_cases h2 : (c.isAlpha && (c :: cs).all isSchemeChar) = true
      · rw [if_pos h2] at h
        simp at h
      · rw [if_neg h2]

/-- The scheme component `urlparse` reports is the one `splitScheme`
found. -/
theorem urlparse_scheme (s : String) (p : UrlParts) (h : urlparse s = Except.ok p) :
    p.scheme = String.mk (splitScheme (removeUnsafe s.data)).1 := by
  rw [urlparse] at h
  by_cases htake : (splitScheme (removeUnsafe s.data)).2.take 2 = ['/', '/']
  · rw [if_pos htake] at h
    by_cases hbr : bracketMismatch (netlocOf (splitScheme (removeUnsafe s.data)).2) = true
    · rw [if_pos hbr] at h
      cases h
    · rw [if_neg hbr] at h
      injection h with h'
      subst h'
      rfl
  · rw [if_neg htake] at h
    injection h with h'
    subst h'
    rfl

/-- When the post-scheme remainder does not start with `//`, `urlparse`
reports an empty netloc and the remainder (fragment, query and params
stripped) as the path. -/
theorem urlparse_no_netloc (s : String) (p : UrlParts) (h : urlparse s = Except.ok p)
    (htake : (splitScheme (removeUnsafe s.data)).2.take 2 ≠ ['/', '/']) :
    p = ⟨String.mk (splitScheme (removeUnsafe s.data)).1, "",
      String.mk (parsePath (splitScheme (removeUnsafe s.data)).2)⟩ := by
  rw [urlparse, if_neg htake] at h
  injection h with h'
  exact h'.symm

/-- Counterexample for C7: `//example.com` lacks a scheme, yet its host
component is nonempty and the request target is the host, not the bare
path (which is empty). -/
theorem clean_url_schemeless_cex :
    urlparse "//example.com" = Except.ok ⟨"", "example.com", ""⟩ ∧
    clean_url "//example.com" = Except.ok "example.com" ∧
    clean_url "//example.com" ≠ Except.ok (pyRstrip "" '/') := by
  refine ⟨by decide, by decide, by decide⟩

/-- C7 (amended): the request target is always
`(netloc + path).rstrip('/')`; and for an input lacking a scheme *and not
beginning with `//`* (after tab/CR/LF removal) the host component is empty
and the target is the bare path with trailing slashes stripped. -/
theorem clean_url_target (s : String) (p : UrlParts) (h : urlparse s = Except.ok p) :
    clean_url s = Except.ok (pyRstrip (p.netloc ++ p.path) '/') ∧
    (p.scheme = "" → (removeUnsafe s.data).take 2 ≠ ['/', '/'] →
      p.netloc = "" ∧ clean_url s = Except.ok (pyRstrip p.path '/')) := by
  constructor
  · rw [clean_url, h]
    rfl
  · intro hs hnn
    by_cases htake : (splitScheme (removeUnsafe s.data)).2.take 2 = ['/', '/']
    · exfalso
      have hsch := urlparse_scheme s p h
      rw [hs] at hsch
      have hfst : (splitScheme (removeUnsafe s.data)).1 = [] := by
        cases hmk : (splitScheme (removeUnsafe s.data)).1 with
        | nil => rfl
        | cons a t =>
          rw [hmk] at hsch
          have h3 : ([] : List Char) = a :: t := congrArg String.data hsch
          cases h3
      have h2 := splitScheme_fst_nil _ hfst
      rw [h2] at htake
      exact hnn htake
    · have hp := urlparse_no_netloc s p h htake
      subst hp
      refine ⟨rfl, ?_⟩
      rw [clean_url, h]
      show Except.ok (pyRstrip ("" ++ String.mk
        (parsePath (splitScheme (removeUnsafe s.data)).2)) '/') = _
      rw [String.empty_append]

/-- Witness for C7 (amended): `example.com` has no scheme and does not
begin with `//`, so the host is empty and the target is the bare path. -/
theorem clean_url_target_witness :
    urlparse "example.com" = Except.ok ⟨"", "", "example.com"⟩ ∧
    clean_url "example.com" = Except.ok (pyRstrip (("" : String) ++ "example.com") '/') ∧
    clean_url "example.com" = Except.ok (pyRstrip "example.com" '/') :=
  ⟨by decide,
   (clean_url_target "example.com" ⟨"", "", "example.com"⟩ (by decide)).1,
   ((clean_url_target "example.com" ⟨"", "", "example.com"⟩ (by decide)).2 rfl (by decide)).2⟩

/-- The value a non-raising per-row assignment stores is exactly the one
the specification's mapping prescribes. -/
theorem rowResultUpdate_ok_val (r : Option Json) (v : Json)
    (hrow : rowResultUpdate r = Except.ok v) : v = claimedResult r := by
  unfold rowResultUpdate at hrow
  cases r with
  | none =>
    injection hrow with h'
    exact h'.symm
  | some j =>
    dsimp only at hrow
    by_cases htr : j.truthy = true
    · rw [if_pos htr] at hrow
      cases hin : pyInStr "data" j with
      | none => rw [hin] at hrow; cases hrow
      | some b =>
        rw [hin] at hrow
        cases b with
        | false =>
          injection hrow with h'
          subst h'
          cases j with
          | obj kvs =>
            cases hf : kvs.find? (fun kv => kv.1 = "data") with
            | none => simp [claimedResult, hf]
            | some kv => simp [pyInStr, hf] at hin
          | str s => rfl
          | arr xs => rfl
          | num n => simp [pyInStr] at hin
          | bool c => simp [pyInStr] at hin
          | null => simp [pyInStr] at hin
        | true =>
          cases hidx : pyIndexStr "data" j with
          | none => rw [hidx] at hrow; cases hrow
          | some d =>
            rw [hidx] at hrow
            dsimp only at hrow
            cases hin2 : pyInStr "jsonUrl" d with
            | none => rw [hin2] at hrow; cases hrow
            | some b2 =>
              rw [hin2] at hrow
              cases j with
              | obj kvs =>
                cases hf : kvs.find? (fun kv => kv.1 = "data") with
                | none => simp [pyIndexStr, hf] at hidx
                | some kv =>
                  obtain ⟨k, dv⟩ := kv
                  have hd : dv = d := by simpa [pyIndexStr, hf] using hidx
                  subst hd
                  cases b2 with
                  | false =>
                    injection hrow with h'
                    subst h'
                    cases dv with
                    | obj kvs2 =>
                      cases hf2 : kvs2.find? (fun kv => kv.1 = "jsonUrl") with
                      | none => simp [claimedResult, hf, hf2]
                      | some kv2 => simp [pyInStr, hf2] at hin2
                    | str s2 => simp [claimedResult, hf]
                    | arr xs2 => simp [claimedResult, hf]
                    | num n2 => simp [pyInStr] at hin2
                    | bool c2 => simp [pyInStr] at hin2
                    | null => simp [pyInStr] at hin2
                  | true =>
                    cases hidx2 : pyIndexStr "jsonUrl" dv with
                    | none => rw [hidx2] at hrow; cases hrow
                    | some v2 =>
                      rw [hidx2] at hrow
                      injection hrow with h'
                      subst h'
                      cases dv with
                      | obj kvs2 =>
                        cases hf2 : kvs2.find? (fun kv => kv.1 = "jsonUrl") with
                        | none => simp [pyIndexStr, hf2] at hidx2
                        | some kv2 =>
                          obtain ⟨k2, v2'⟩ := kv2
                          have hv : v2' = v2 := by simpa [pyIndexStr, hf2] using hidx2
                          subst hv
                          simp [claimedResult, hf, hf2]
                      | str s2 => simp [pyIndexStr] at hidx2
                      | arr xs2 => simp [pyIndexStr] at hidx2
                      | num n2 => simp [pyIndexStr] at hidx2
                      | bool c2 => simp [pyIndexStr] at hidx2
                      | null => simp [pyIndexStr] at hidx2
              | str s => simp [pyIndexStr] at hidx
              | arr xs => simp [pyIndexStr] at hidx
              | num n => simp [pyIndexStr] at hidx
              | bool c => simp [pyIndexStr] at hidx
              | null => simp [pyIndexStr] at hidx
    · rw [if_neg htr] at hrow
      injection hrow with h'
      subst h'
      cases j with
      | obj kvs =>
        cases kvs with
        | nil => rfl
        | cons kv kt => simp [Json.truthy] at htr
      | str s =>
        by_cases hs : s = ""
        · subst hs; rfl
        · simp [Json.truthy, hs] at htr
      | arr xs =>
        cases xs with
        | nil => rfl
        | cons x xt => simp [Json.truthy] at htr
      | num n =>
        by_cases hn : n = 0
        · subst hn; rfl
        · simp [Json.truthy, hn] at htr
      | bool c =>
        cases c with
        | false => rfl
        | true => simp [Json.truthy] at htr
      | null => rfl

/-- A row whose assignment does not raise stores the prescribed value. -/
theorem rowResultUpdate_ok_eq (r : Option Json) (h : noRaise r = true) :
    rowResultUpdate r = Except.ok (claimedResult r) := by
  unfold noRaise at h
  cases hrow : rowResultUpdate r with
  | error e => rw [hrow] at h; cases h
  | ok v => rw [rowResultUpdate_ok_val r v hrow]

/-- Counterexample for C3: a successful submission whose `data` member is
the *string* `"jsonUrl"` passes the `in` checks (substring semantics) and
then raises `TypeError` at `result['data']['jsonUrl']`, aborting the whole
batch: no row receives a `Results` value, although the claim prescribes
the sentinel for this row. -/
theorem batch_rows_cex :
    batchLoop [some (Json.obj [("data", Json.str "jsonUrl")])] = none ∧
    claimedResult (some (Json.obj [("data", Json.str "jsonUrl")]))
      = Json.str "Error processing URL" :=
  ⟨rfl, rfl⟩

/-- C3 (amended): provided no row's extraction check raises a `TypeError`,
the batch loop completes and assigns every row exactly one `Results`
value — the extracted `data.jsonUrl` when the result is a JSON object
containing it, the sentinel otherwise — and a row's terminal failure
(`None`) never raises, so it never aborts the batch. -/
theorem batch_rows_amended (results : List (Option Json))
    (h : ∀ r ∈ results, noRaise r = true) :
    batchLoop results = some (results.map claimedResult) ∧
    rowResultUpdate none = Except.ok (Json.str "Error processing URL") := by
  refine ⟨?_, rfl⟩
  induction results with
  | nil => rfl
  | cons r rs ih =>
    have h1 := rowResultUpdate_ok_eq r (h r (List.mem_cons_self r rs))
    rw [batchLoop, h1]
    dsimp only
    rw [ih (fun x hx => h x (List.mem_cons_of_mem r hx))]
    rfl

/-- Witness for C3 (amended): a failed row and a successful row. -/
theorem batch_rows_amended_witness :
    (∀ r ∈ ([none,
        some (Json.obj [("data", Json.obj [("jsonUrl", Json.str "https://wpt/r.json")])])] :
        List (Option Json)), noRaise r = true) ∧
    batchLoop [none,
        some (Json.obj [("data", Json.obj [("jsonUrl", Json.str "https://wpt/r.json")])])]
      = some ([none,
        some (Json.obj [("data", Json.obj [("jsonUrl", Json.str "https://wpt/r.json")])])].map
          claimedResult) :=
  ⟨by decide, (batch_rows_amended _ (by decide)).1⟩

/-- Counterexample for C5: `validate("not a url")` does not yield
MissingDomain or ParseError — the prefixed parse finds the host
`not a url`, which merely lacks a dot, so the issue is
InvalidDomainFormat.  (The only parse `ValueError` this parser raises is
the mismatched-bracket `Invalid IPv6 URL`.) -/
theorem validate_examples_cex :
    validateOne "not a url" = some ("https://not a url", "Invalid domain format") ∧
    ("Invalid domain format" : String) ≠ "Missing domain name" ∧
    ("Invalid domain format" : String) ≠ "Invalid IPv6 URL" := by
  refine ⟨by decide, by decide, by decide⟩

/-- C5 (amended): `validate("example.com")` yields no issue,
`validate("not a url")` yields InvalidDomainFormat, and
`validate("localhost")` yields InvalidDomainFormat (host contains no
dot). -/
theorem validate_examples :
    validate_urls ["example.com"] = [] ∧
    validateOne "not a url" = some ("https://not a url", "Invalid domain format") ∧
    validateOne "localhost" = some ("https://localhost", "Invalid domain format") := by
  refine ⟨by decide, by decide, by decide⟩

/-- C6: when the stripped input parses with neither scheme nor host,
`validateOne` prepends `https://` (to the unstripped input) and
re-parses, and the MissingDomain / InvalidDomainFormat checks run on that
prefixed string. -/
theorem validate_autoprefix (url : String) (p : UrlParts)
    (h : urlparse (pyStrip url) = Except.ok p) (hs : p.scheme = "") (hn : p.netloc = "") :
    validateOne url =
      match urlparse ("https://" ++ url) with
      | Except.error e => some ("https://" ++ url, e)
      | Except.ok parsed2 => classifyNetloc ("https://" ++ url) parsed2 := by
  unfold validateOne
  rw [h]
  dsimp only
  rw [if_pos ⟨hs, hn⟩]

/-- Witness for C6: `example.com` takes the auto-prefix path. -/
theorem validate_autoprefix_witness :
    urlparse (pyStrip "example.com") = Except.ok ⟨"", "", "example.com"⟩ ∧
    validateOne "example.com" =
      match urlparse ("https://" ++ "example.com") with
      | Except.error e => some ("https://" ++ "example.com", e)
      | Except.ok parsed2 => classifyNetloc ("https://" ++ "example.com") parsed2 :=
  ⟨by decide, validate_autoprefix "example.com" ⟨"", "", "example.com"⟩ (by decide) rfl rfl⟩

/-- An element the `dropWhile` result starts with falsifies the
predicate. -/
theorem dropWhile_head_false (p : Char → Bool) (l : List Char) (b : Char) (t : List Char)
    (h : l.dropWhile p = b :: t) : p b = false := by
  induction l with
  | nil => simp [List.dropWhile] at h
  | cons a l ih =>
    rw [List.dropWhile_cons] at h
    by_cases hp : p a = true
    · rw [if_pos hp] at h
      exact ih h
    · rw [if_neg hp] at h
      injection h with h1 _
      subst h1
      simpa using hp

/-- Stripping from both ends is idempotent (list form). -/
theorem strip_idem_list (p : Char → Bool) (l : List Char) :
    List.rdropWhile p ((List.rdropWhile p (l.dropWhile p)).dropWhile p) =
      List.rdropWhile p (l.dropWhile p) := by
  have hself : (List.rdropWhile p (l.dropWhile p)).dropWhile p
      = List.rdropWhile p (l.dropWhile p) := by
    obtain ⟨t, ht⟩ := List.rdropWhile_prefix p (l.dropWhile p)
    cases hr : List.rdropWhile p (l.dropWhile p) with
    | nil => rfl
    | cons a rt =>
      rw [hr] at ht
      have hfalse : p a = false := dropWhile_head_false p l a (rt ++ t) ht.symm
      rw [List.dropWhile_cons, if_neg (by simp [hfalse])]
  rw [hself, List.rdropWhile_idempotent]

/-- `str.strip()` is idempotent. -/
theorem pyStrip_idem (s : String) : pyStrip (pyStrip s) = pyStrip s := by
  unfold pyStrip
  exact congrArg String.mk (strip_idem_list isPySpace s.data)

/-- The issue reason reported by the netloc classification does not
depend on the recorded URL string. -/
theorem classifyNetloc_snd (u v : String) (p : UrlParts) :
    (classifyNetloc u p).map Prod.snd = (classifyNetloc v p).map Prod.snd := by
  unfold classifyNetloc
  split_ifs <;> rfl

/-- Counterexample for C8: `validate(" /x.com")` and
`validate("/x.com")` differ — the auto-prefix is applied to the
*untrimmed* input, so the leading space ends up inside the host
(`https:// /x.com` parses with host `" "`, InvalidDomainFormat), while
the trimmed input yields an empty host (MissingDomain). -/
theorem validate_strip_cex :
    pyStrip " /x.com" = "/x.com" ∧
    validateOne " /x.com" = some ("https:// /x.com", "Invalid domain format") ∧
    validateOne "/x.com" = some ("https:///x.com", "Missing domain name") ∧
    validateOne " /x.com" ≠ validateOne (pyStrip " /x.com") := by
  refine ⟨by decide, by decide, by decide, by decide⟩

/-- C8 (amended): whitespace is trimmed only for the initial parse; when
that parse finds a scheme or a host, `validate(rawUrl)` and
`validate(rawUrl.strip())` report the same issue classification (the
recorded URL string may differ), but on the auto-prefix path the prefix
is applied to the untrimmed input and the results may differ. -/
theorem validate_strip_partial (url : String) (p : UrlParts)
    (h : urlparse (pyStrip url) = Except.ok p)
    (hs : ¬(p.scheme = "" ∧ p.netloc = "")) :
    (validateOne url).map Prod.snd = (validateOne (pyStrip url)).map Prod.snd := by
  have h2 : urlparse (pyStrip (pyStrip url)) = Except.ok p := by
    rw [pyStrip_idem]
    exact h
  unfold validateOne
  rw [h, h2]
  dsimp only
  rw [if_neg hs, if_neg hs]
  exact classifyNetloc_snd url (pyStrip url) p

/-- Witness for C8 (amended): an input with a scheme, surrounded by
whitespace. -/
theorem validate_strip_partial_witness :
    urlparse (pyStrip " https://example.com ") = Except.ok ⟨"https", "example.com", ""⟩ ∧
    (validateOne " https://example.com ").map Prod.snd
      = (validateOne (pyStrip " https://example.com ")).map Prod.snd :=
  ⟨by decide, validate_strip_partial " https://example.com " ⟨"https", "example.com", ""⟩
    (by decide) (by decide)⟩

/-- C10: `detect_delimiter` decides from the first line alone, resets the
cursor to the beginning (so a subsequent full parse sees the whole
content, header line included), and leaves the content unchanged. -/
theorem detect_delimiter_resets (f : PyFile) :
    (detect_delimiter f).2 = ⟨f.content, 0⟩ ∧
    (detect_delimiter f).1 = (if (readline f).1.data.contains '\t' then "\t" else ",") ∧
    (detect_delimiter f).2.content.data.drop (detect_delimiter f).2.pos = f.content.data := by
  unfold detect_delimiter seek0
  by_cases hc : (readline f).1.data.contains '\t' = true
  · rw [if_pos hc, if_pos hc]
    exact ⟨rfl, rfl, rfl⟩
  · rw [if_neg hc, if_neg hc]
    exact ⟨rfl, rfl, rfl⟩
